import Mathlib

/-!
Shallow embedding of the incremental ELO rating engine of
`src/analysis/elo.py` (class `EloTracker` and `run_incremental_elo`),
together with the slice of `src/database.py` that the orchestrator uses
as its Rating Store (`upload_elo_ratings` / `get_elo_ratings` /
`get_last_processed_match_date` / `upload_elo_match_history`).

Modelling conventions:
* Python floats are idealised as exact real numbers (`ℝ`); `10 ** x` is
  `Real.rpow`.
* `round(x, n)` is modelled as nearest-integer rounding of `x * 10^n`
  (Mathlib's `round`); Python's tie-to-even differs only at exact ties,
  which no development below evaluates at.
* Python dicts are association lists with insert-or-overwrite keeping the
  first occurrence's position (insertion order preserved, as in CPython).
* `pandas.sort_values` is modelled as a stable sort
  (`List.insertionSort`); ties keep feed order.
* Dates are modelled as naturals (only their ordering matters), goal
  counts as naturals.
-/

namespace GaffersElo

/-- Python-dict model: association list, lookup of the first binding. -/
def dlookup {α : Type} (d : List (String × α)) (k : String) : Option α :=
  match d with
  | [] => none
  | (k2, v) :: rest => if k2 = k then some v else dlookup rest k

/-- Python-dict model: `d[k] = v`. Overwrites in place if `k` is bound,
appends at the end otherwise (CPython insertion-order semantics). -/
def dinsert {α : Type} (d : List (String × α)) (k : String) (v : α) :
    List (String × α) :=
  match d with
  | [] => [(k, v)]
  | (k2, v2) :: rest =>
      if k2 = k then (k2, v) :: rest else (k2, v2) :: dinsert rest k v

/-- Model of `round(x, 2)` of the source, as exact real rounding. -/
noncomputable def round2 (x : ℝ) : ℝ := (round (x * 100) : ℤ) / 100

/-- Model of `round(x, 3)` of the source, as exact real rounding. -/
noncomputable def round3 (x : ℝ) : ℝ := (round (x * 1000) : ℤ) / 1000

/-- One entry of `EloTracker.history` (the dict appended by
`process_match`). -/
structure HistEntry where
  Date : ℕ
  Season : String
  League : String
  HomeTeam : String
  AwayTeam : String
  FTHG : ℕ
  FTAG : ℕ
  HomeRating_Before : ℝ
  AwayRating_Before : ℝ
  HomeRating_After : ℝ
  AwayRating_After : ℝ
  Expected_Home_Win : ℝ
  Rating_Change_Home : ℝ
  Rating_Change_Away : ℝ

/-- The `EloTracker` instance state: the four mutable maps/lists plus the
constructor configuration (`__init__`). -/
structure EloTracker where
  ratings : List (String × ℝ)
  match_counts : List (String × ℕ)
  team_leagues : List (String × String)
  history : List HistEntry
  k_stable : ℝ
  k_volatile : ℝ
  volatile_limit : ℕ
  home_adv : ℝ
  base : ℝ

/-- Constructor `EloTracker(...)`: fresh instance with the source's default
configuration values unless overridden. -/
def EloTracker.init (k_factor_stable : ℝ := 20) (k_factor_volatile : ℝ := 40)
    (volatile_match_count : ℕ := 30) (home_advantage : ℝ := 40)
    (base_rating : ℝ := 1500) : EloTracker :=
  { ratings := [], match_counts := [], team_leagues := [], history := []
    k_stable := k_factor_stable, k_volatile := k_factor_volatile
    volatile_limit := volatile_match_count, home_adv := home_advantage
    base := base_rating }

/-- Model of `EloTracker.get_rating`: stored rating, or `base` for an unseen team. -/
def EloTracker.get_rating (self : EloTracker) (team : String) : ℝ :=
  (dlookup self.ratings team).getD self.base

/-- Model of `EloTracker.get_k_factor`: volatile K below the match-count limit,
stable K at or above it; an unseen team counts as 0 matches. -/
def EloTracker.get_k_factor (self : EloTracker) (team : String) : ℝ :=
  if (dlookup self.match_counts team).getD 0 < self.volatile_limit then
    self.k_volatile
  else self.k_stable

/-- Model of `EloTracker._expected_score`: the logistic expectation
`1 / (1 + 10 ** ((rating_b - rating_a) / 400))`. -/
noncomputable def expected_score (rating_a rating_b : ℝ) : ℝ :=
  1 / (1 + (10 : ℝ) ^ ((rating_b - rating_a) / 400))

/-- Model of `EloTracker._get_margin_multiplier`. -/
noncomputable def get_margin_multiplier (goal_diff : ℤ) : ℝ :=
  if goal_diff ≤ 0 then 1
  else if goal_diff = 1 then 1.0
  else if goal_diff = 2 then 1.5
  else (11 + (goal_diff : ℝ)) / 8

/-- Model of `EloTracker.process_match`: the central state transition, transcribed
line by line (reads of `r_home`, `r_away`, `k_home`, `k_away` happen before
any write; the away match-count read happens after the home write, as in
the source's sequential dict updates). -/
noncomputable def EloTracker.process_match (self : EloTracker)
    (home_team away_team : String) (fthg ftag : ℕ) (date : ℕ)
    (season league : String) : EloTracker :=
  let r_home := self.get_rating home_team
  let r_away := self.get_rating away_team
  let k_home := self.get_k_factor home_team
  let k_away := self.get_k_factor away_team
  let actual_home : ℝ := if fthg > ftag then 1.0 else if fthg = ftag then 0.5 else 0.0
  let goal_diff : ℤ :=
    if fthg > ftag then (fthg : ℤ) - (ftag : ℤ)
    else if fthg = ftag then 0
    else (ftag : ℤ) - (fthg : ℤ)
  let expected_home := expected_score (r_home + self.home_adv) r_away
  let g_mult := get_margin_multiplier goal_diff
  let delta_home := k_home * g_mult * (actual_home - expected_home)
  let delta_away := k_away * g_mult * ((1 - actual_home) - (1 - expected_home))
  let new_home := r_home + delta_home
  let new_away := r_away + delta_away
  let counts1 := dinsert self.match_counts home_team
    ((dlookup self.match_counts home_team).getD 0 + 1)
  let counts2 := dinsert counts1 away_team ((dlookup counts1 away_team).getD 0 + 1)
  { self with
    ratings := dinsert (dinsert self.ratings home_team new_home) away_team new_away
    match_counts := counts2
    team_leagues := dinsert (dinsert self.team_leagues home_team league) away_team league
    history := self.history ++
      [{ Date := date, Season := season, League := league
         HomeTeam := home_team, AwayTeam := away_team
         FTHG := fthg, FTAG := ftag
         HomeRating_Before := round2 r_home, AwayRating_Before := round2 r_away
         HomeRating_After := round2 new_home, AwayRating_After := round2 new_away
         Expected_Home_Win := round3 expected_home
         Rating_Change_Home := round2 delta_home
         Rating_Change_Away := round2 delta_away }] }

/-- One row of the DataFrame handed to `process_league_season`
(columns `Date, HomeTeam, AwayTeam, FTHG, FTAG`). -/
structure MatchRow where
  Date : ℕ
  HomeTeam : String
  AwayTeam : String
  FTHG : ℕ
  FTAG : ℕ

/-- Model of `df.sort_values('Date')` for a season DataFrame: stable sort by date
(ties keep feed order). -/
def sortByDate (df : List MatchRow) : List MatchRow :=
  df.insertionSort (fun a b => a.Date ≤ b.Date)

/-- Model of `EloTracker.process_league_season`: sort chronologically, then fold
`process_match` over the rows. -/
noncomputable def EloTracker.process_league_season (self : EloTracker)
    (df : List MatchRow) (season league_key : String) : EloTracker :=
  (sortByDate df).foldl
    (fun st row =>
      st.process_match row.HomeTeam row.AwayTeam row.FTHG row.FTAG row.Date
        season league_key)
    self

/-- Model of `EloTracker.get_history_df`. -/
def EloTracker.get_history_df (self : EloTracker) : List HistEntry :=
  self.history

/-- One row of `get_current_ratings_df`'s output. -/
structure RatingsRow where
  Rank : ℕ
  Team : String
  Elo : ℝ
  Matches : ℕ
  league : Option String

/-- Model of `EloTracker.get_current_ratings_df`: one row per stored team with the
rating rounded to 2 decimals, sorted by `Elo` descending, ranked from 1.
On an engine with no stored team the list comprehension is empty, the
resulting DataFrame has no columns at all, and `sort_values('Elo')`
raises a `KeyError`; that failure is the `Except.error` branch. -/
noncomputable def EloTracker.get_current_ratings_df (self : EloTracker) :
    Except String (List RatingsRow) :=
  let data := self.ratings.map (fun kv =>
    (kv.1, round2 kv.2, (dlookup self.match_counts kv.1).getD 0,
      dlookup self.team_leagues kv.1))
  if data.isEmpty then
    Except.error "KeyError: Elo"
  else
    let sorted := data.insertionSort (fun a b => b.2.1 ≤ a.2.1)
    Except.ok (sorted.enum.map (fun ri =>
      { Rank := ri.1 + 1, Team := ri.2.1, Elo := ri.2.2.1
        Matches := ri.2.2.2.1, league := ri.2.2.2.2 }))

/-- One row of the Rating Store's `elo_ratings` table, as
`get_elo_ratings` returns it and `load_from_db` reads it. -/
structure DbRatingRow where
  team : String
  elo_rating : ℝ
  matches_played : ℕ
  league : Option String

/-- Loop body of `load_from_db` for one store row: copy the row's rating
and match count into the instance maps; the league tag only when truthy
(present and non-empty). -/
def load_row (st : EloTracker) (row : DbRatingRow) : EloTracker :=
  { st with
    ratings := dinsert st.ratings row.team row.elo_rating
    match_counts := dinsert st.match_counts row.team row.matches_played
    team_leagues :=
      match row.league with
      | some lg => if lg = "" then st.team_leagues else dinsert st.team_leagues row.team lg
      | none => st.team_leagues }

/-- Model of `EloTracker.load_from_db`: fold `load_row` over the store's
ratings rows. -/
def EloTracker.load_from_db (self : EloTracker) (ratings_df : List DbRatingRow) :
    EloTracker :=
  ratings_df.foldl load_row self

/-- The store adapter `upload_elo_ratings` stores each exported row under the store's column
names (`Team → team`, `Elo → elo_rating`, `Matches → matches_played`),
which `get_elo_ratings` later returns verbatim. -/
def toDbRow (r : RatingsRow) : DbRatingRow :=
  { team := r.Team, elo_rating := r.Elo, matches_played := r.Matches
    league := r.league }

/-- One row of the raw-matches feed as `process_new_matches` receives it:
either the lowercase store schema or the uppercase CSV schema may populate
each field (the `date` column is renamed to `Date` before the loop, so a
single date field suffices). -/
structure FeedRow where
  Date : ℕ
  fthg : Option ℕ
  FTHG : Option ℕ
  ftag : Option ℕ
  FTAG : Option ℕ
  home_team : Option String
  HomeTeam : Option String
  away_team : Option String
  AwayTeam : Option String
  season : Option String
  Season : Option String
  league : Option String
  League : Option String

/-- Line `row.get('fthg') if row.get('fthg') is not None else row.get('FTHG')`:
an explicit is-not-None presence check, not truthiness. -/
def FeedRow.resolved_fthg (row : FeedRow) : Option ℕ :=
  match row.fthg with
  | some v => some v
  | none => row.FTHG

/-- Same explicit presence check for the away goals. -/
def FeedRow.resolved_ftag (row : FeedRow) : Option ℕ :=
  match row.ftag with
  | some v => some v
  | none => row.FTAG

/-- Python's `a or b` on optional strings: falls through when `a` is
`None` or empty (truthiness). -/
def orTruthy (a b : Option String) : Option String :=
  match a with
  | some s => if s = "" then b else some s
  | none => b

/-- The body of `process_new_matches`' loop for one row. A row missing a
required field would make the Python call fail on `None`; the model
totalises those unreachable reads with a default. -/
noncomputable def EloTracker.process_feed_row (self : EloTracker) (row : FeedRow) :
    EloTracker :=
  self.process_match
    ((orTruthy row.home_team row.HomeTeam).getD "")
    ((orTruthy row.away_team row.AwayTeam).getD "")
    ((row.resolved_fthg).getD 0)
    ((row.resolved_ftag).getD 0)
    row.Date
    ((orTruthy row.season row.Season).getD "")
    ((orTruthy row.league row.League).getD "")

/-- Model of `df.sort_values('Date')` for the feed DataFrame. -/
def sortFeedByDate (df : List FeedRow) : List FeedRow :=
  df.insertionSort (fun a b => a.Date ≤ b.Date)

/-- Model of `EloTracker.process_new_matches`: early-return 0 on an empty frame,
otherwise sort by date, fold the rows, and return the row count. -/
noncomputable def EloTracker.process_new_matches (self : EloTracker)
    (matches_df : List FeedRow) : EloTracker × ℕ :=
  if matches_df.length = 0 then (self, 0)
  else
    ((sortFeedByDate matches_df).foldl (fun st row => st.process_feed_row row) self,
      matches_df.length)

/-- The Rating Store's two tables (`elo_ratings` and
`elo_match_history`). -/
structure RatingStore where
  ratings_table : List DbRatingRow
  history_table : List HistEntry

/-- Model of `get_last_processed_match_date`: max date of the history ledger,
`none` when the ledger is empty. -/
def get_last_processed_match_date (store : RatingStore) : Option ℕ :=
  match store.history_table with
  | [] => none
  | h :: t => some (t.foldl (fun acc e => max acc e.Date) h.Date)

/-- Model of `EloTracker.from_db`: a default-configured tracker, loaded from the
ratings table when it is non-empty. -/
def EloTracker.from_db (store : RatingStore) : EloTracker :=
  if store.ratings_table.length > 0 then
    EloTracker.init.load_from_db store.ratings_table
  else EloTracker.init

/-- Model of `upload_elo_ratings`: upsert keyed on team — each exported row
overwrites the store row with the same team or is appended. -/
def upload_elo_ratings (table : List DbRatingRow) (rows : List RatingsRow) :
    List DbRatingRow :=
  rows.foldl
    (fun t r =>
      if t.any (fun existing => existing.team = r.Team) then
        t.map (fun existing => if existing.team = r.Team then toDbRow r else existing)
      else t ++ [toDbRow r])
    table

/-- Model of `upload_elo_match_history`: upsert keyed on
`(league, season, date, home_team, away_team)`. -/
def upload_elo_match_history (table : List HistEntry) (rows : List HistEntry) :
    List HistEntry :=
  let sameKey := fun (a b : HistEntry) =>
    a.League = b.League ∧ a.Season = b.Season ∧ a.Date = b.Date ∧
      a.HomeTeam = b.HomeTeam ∧ a.AwayTeam = b.AwayTeam
  rows.foldl
    (fun t r =>
      if t.any (fun existing => decide (sameKey existing r)) then
        t.map (fun existing => if sameKey existing r then r else existing)
      else t ++ [r])
    table

/-- Model of `run_incremental_elo`: load state from the store, fetch the matches
after the watermark from the feed, fold them, and persist history and
ratings only when the run's history accumulator is non-empty. The export
falls back to an unchanged ratings table if `get_current_ratings_df`
raised (unreachable when history is non-empty). -/
noncomputable def run_incremental_elo (store : RatingStore)
    (feed : Option ℕ → List FeedRow) : RatingStore :=
  let tracker := EloTracker.from_db store
  let last_date := get_last_processed_match_date store
  let new_matches := feed last_date
  let tracker2 := (tracker.process_new_matches new_matches).1
  if tracker2.history.length > 0 then
    { history_table := upload_elo_match_history store.history_table tracker2.get_history_df
      ratings_table :=
        match tracker2.get_current_ratings_df with
        | Except.ok rows => upload_elo_ratings store.ratings_table rows
        | Except.error _ => store.ratings_table }
  else store

/-- Argument tuple of one `process_match` call. -/
structure MatchArgs where
  home_team : String
  away_team : String
  fthg : ℕ
  ftag : ℕ
  date : ℕ
  season : String
  league : String

/-- One engine step: `process_match` at the given argument tuple. -/
noncomputable def stepMatch (st : EloTracker) (m : MatchArgs) : EloTracker :=
  st.process_match m.home_team m.away_team m.fthg m.ftag m.date m.season m.league

/-- Sequential replay: fold `process_match` over a list of matches. -/
noncomputable def replay (st : EloTracker) (ms : List MatchArgs) : EloTracker :=
  ms.foldl stepMatch st

/-- The audit record `process_match` appends for the transition out of
state `st`: before/after ratings rounded to 2 decimals, the expected-home
probability to 3, both deltas to 2. -/
noncomputable def mkRecord (st : EloTracker) (m : MatchArgs) : HistEntry :=
  let r_home := st.get_rating m.home_team
  let r_away := st.get_rating m.away_team
  let k_home := st.get_k_factor m.home_team
  let k_away := st.get_k_factor m.away_team
  let actual_home : ℝ :=
    if m.fthg > m.ftag then 1.0 else if m.fthg = m.ftag then 0.5 else 0.0
  let goal_diff : ℤ :=
    if m.fthg > m.ftag then (m.fthg : ℤ) - (m.ftag : ℤ)
    else if m.fthg = m.ftag then 0
    else (m.ftag : ℤ) - (m.fthg : ℤ)
  let expected_home := expected_score (r_home + st.home_adv) r_away
  let g_mult := get_margin_multiplier goal_diff
  let delta_home := k_home * g_mult * (actual_home - expected_home)
  let delta_away := k_away * g_mult * ((1 - actual_home) - (1 - expected_home))
  { Date := m.date, Season := m.season, League := m.league
    HomeTeam := m.home_team, AwayTeam := m.away_team
    FTHG := m.fthg, FTAG := m.ftag
    HomeRating_Before := round2 r_home, AwayRating_Before := round2 r_away
    HomeRating_After := round2 (r_home + delta_home)
    AwayRating_After := round2 (r_away + delta_away)
    Expected_Home_Win := round3 expected_home
    Rating_Change_Home := round2 delta_home
    Rating_Change_Away := round2 delta_away }

/-- The list of audit records a replay run appends, one per match, each
taken at its own running state. -/
noncomputable def runRecords : EloTracker → List MatchArgs → List HistEntry
  | _, [] => []
  | st, m :: ms => mkRecord st m :: runRecords (stepMatch st m) ms

/-- The checkpoint step of the incremental protocol: export the snapshot
with `get_current_ratings_df`, push it through the store's column mapping,
and load it into a freshly constructed engine with the same constructor
arguments. -/
noncomputable def export_reload (self : EloTracker) : EloTracker :=
  let fresh := EloTracker.init self.k_stable self.k_volatile self.volatile_limit
    self.home_adv self.base
  match self.get_current_ratings_df with
  | Except.ok rows => fresh.load_from_db (rows.map toDbRow)
  | Except.error _ => fresh

/-- A store ratings row built straight from one entry of the snapshot's
underlying data tuple (team, rounded rating, match count, league). -/
def storedRowOf (kv : String × ℝ × ℕ × Option String) : DbRatingRow :=
  { team := kv.1, elo_rating := kv.2.1, matches_played := kv.2.2.1
    league := kv.2.2.2 }

/-! Association-list (Python dict) lemmas. -/

lemma dlookup_dinsert_self {α : Type} (d : List (String × α)) (k : String) (v : α) :
    dlookup (dinsert d k v) k = some v := by
  induction d with
  | nil => simp [dinsert, dlookup]
  | cons kv rest ih =>
      obtain ⟨k2, v2⟩ := kv
      by_cases h : k2 = k
      · simp [dinsert, dlookup, h]
      · simp [dinsert, dlookup, h, ih]

lemma dlookup_dinsert_ne {α : Type} (d : List (String × α)) (k t : String) (v : α)
    (h : t ≠ k) : dlookup (dinsert d k v) t = dlookup d t := by
  have hkt : ¬ k = t := fun hk => h hk.symm
  induction d with
  | nil => simp [dinsert, dlookup, hkt]
  | cons kv rest ih =>
      obtain ⟨k2, v2⟩ := kv
      by_cases h2 : k2 = k
      · subst h2
        simp [dinsert, dlookup, hkt]
      · by_cases h3 : k2 = t
        · simp [dinsert, dlookup, h2, h3, h]
        · simp [dinsert, dlookup, h2, h3, ih]

lemma dlookup_mem {α : Type} {d : List (String × α)} {k : String} {v : α}
    (h : dlookup d k = some v) : (k, v) ∈ d := by
  induction d with
  | nil => simp [dlookup] at h
  | cons kv rest ih =>
      obtain ⟨k2, v2⟩ := kv
      by_cases h2 : k2 = k
      · subst h2
        simp [dlookup] at h
        simp [h]
      · simp [dlookup, h2] at h
        exact List.mem_cons_of_mem _ (ih h)

/-! Small facts about `load_from_db` and the orchestrator. -/

lemma load_from_db_cons (self : EloTracker) (r : DbRatingRow) (rest : List DbRatingRow) :
    self.load_from_db (r :: rest) = (load_row self r).load_from_db rest := rfl

lemma load_from_db_history (rows : List DbRatingRow) :
    ∀ self : EloTracker, (self.load_from_db rows).history = self.history := by
  induction rows with
  | nil => intro self; rfl
  | cons r rest ih =>
      intro self
      rw [load_from_db_cons, ih]
      rfl

lemma from_db_history (store : RatingStore) : (EloTracker.from_db store).history = [] := by
  unfold EloTracker.from_db
  split
  · rw [load_from_db_history]
    rfl
  · rfl

/-- C5: `get_k_factor` returns `k_factor_volatile` exactly when the team's
stored match count is strictly below `volatile_match_count`, else
`k_factor_stable`; a never-seen team (no stored count) is volatile whenever
the limit is positive, and a team with exactly `volatile_match_count`
matches gets the stable K. -/
theorem get_k_factor_threshold (self : EloTracker) (team : String) :
    self.get_k_factor team =
      (if (dlookup self.match_counts team).getD 0 < self.volatile_limit then
        self.k_volatile
      else self.k_stable) ∧
    (dlookup self.match_counts team = none → 0 < self.volatile_limit →
      self.get_k_factor team = self.k_volatile) ∧
    (dlookup self.match_counts team = some self.volatile_limit →
      self.get_k_factor team = self.k_stable) := by
  refine ⟨rfl, ?_, ?_⟩
  · intro h hpos
    simp [EloTracker.get_k_factor, h, hpos]
  · intro h
    simp [EloTracker.get_k_factor, h]

/-! Margin-multiplier values. -/

lemma margin_nonpos {d : ℤ} (hd : d ≤ 0) : get_margin_multiplier d = 1 := by
  simp [get_margin_multiplier, hd]

lemma margin_ge_three {d : ℤ} (hd : 3 ≤ d) :
    get_margin_multiplier d = (11 + (d : ℝ)) / 8 := by
  have h0 : ¬ d ≤ 0 := by omega
  have h1 : d ≠ 1 := by omega
  have h2 : d ≠ 2 := by omega
  simp [get_margin_multiplier, h0, h1, h2]

/-- C6: the margin-of-victory multiplier is 1 for a non-positive goal
difference, 1.0 at 1, 1.5 at 2, `(11 + d) / 8` for `d ≥ 3` (so 16/8 = 2 at
5), and is strictly increasing over `d ≥ 1`. -/
theorem margin_multiplier_table :
    (∀ d : ℤ, d ≤ 0 → get_margin_multiplier d = 1) ∧
    get_margin_multiplier 1 = 1.0 ∧
    get_margin_multiplier 2 = 1.5 ∧
    (∀ d : ℤ, 3 ≤ d → get_margin_multiplier d = (11 + (d : ℝ)) / 8) ∧
    get_margin_multiplier 5 = 16 / 8 ∧
    (∀ d e : ℤ, 1 ≤ d → d < e →
      get_margin_multiplier d < get_margin_multiplier e) := by
  refine ⟨fun d hd => margin_nonpos hd, by norm_num [get_margin_multiplier],
    by norm_num [get_margin_multiplier], fun d hd => margin_ge_three hd,
    by rw [margin_ge_three (by norm_num)]; norm_num, ?_⟩
  intro d e hd hde
  rcases eq_or_lt_of_le hd with h1 | h1'
  · -- d = 1
    rw [← h1, show get_margin_multiplier 1 = 1 by norm_num [get_margin_multiplier]]
    rcases eq_or_lt_of_le (show (2 : ℤ) ≤ e by omega) with h2 | h2'
    · rw [← h2]
      norm_num [get_margin_multiplier]
    · rw [margin_ge_three (by omega)]
      have : (3 : ℝ) ≤ (e : ℝ) := by exact_mod_cast (by omega : (3 : ℤ) ≤ e)
      linarith
  · rcases eq_or_lt_of_le (show (2 : ℤ) ≤ d by omega) with h2 | h2'
    · -- d = 2
      rw [← h2, show get_margin_multiplier 2 = 3 / 2 by norm_num [get_margin_multiplier],
        margin_ge_three (by omega)]
      have : (3 : ℝ) ≤ (e : ℝ) := by exact_mod_cast (by omega : (3 : ℤ) ≤ e)
      linarith
    · -- 3 ≤ d < e
      rw [margin_ge_three (by omega), margin_ge_three (by omega)]
      have : (d : ℝ) < (e : ℝ) := by exact_mod_cast hde
      linarith

/-- C9: in `process_new_matches`' row handling, a lowercase goal column
present with value exactly 0 is kept (explicit is-not-None check, not
truthiness): it resolves to 0 and never falls through to the uppercase
column, whatever that column holds; the `process_match` call then receives
goal count 0. -/
theorem zero_goal_is_present (self : EloTracker) (row : FeedRow) :
    (row.fthg = some 0 → row.resolved_fthg = some 0) ∧
    (row.ftag = some 0 → row.resolved_ftag = some 0) ∧
    (row.fthg = some 0 → row.ftag = some 0 →
      self.process_feed_row row =
        self.process_match ((orTruthy row.home_team row.HomeTeam).getD "")
          ((orTruthy row.away_team row.AwayTeam).getD "") 0 0 row.Date
          ((orTruthy row.season row.Season).getD "")
          ((orTruthy row.league row.League).getD "")) := by
  refine ⟨?_, ?_, ?_⟩
  · intro h
    simp [FeedRow.resolved_fthg, h]
  · intro h
    simp [FeedRow.resolved_ftag, h]
  · intro h1 h2
    simp [EloTracker.process_feed_row, FeedRow.resolved_fthg, FeedRow.resolved_ftag, h1, h2]

/-- C10: exporting the ratings snapshot from an engine with no stored team
does not produce an empty snapshot: the empty frame has no `Elo` column,
so the sort raises a `KeyError` (the error branch of the model). -/
theorem get_current_ratings_df_empty_raises (self : EloTracker)
    (h : self.ratings = []) :
    self.get_current_ratings_df = Except.error "KeyError: Elo" := by
  simp [EloTracker.get_current_ratings_df, h]

/-- Witness for C10 at a freshly constructed engine. -/
theorem get_current_ratings_df_empty_raises_witness :
    (EloTracker.init).get_current_ratings_df = Except.error "KeyError: Elo" :=
  get_current_ratings_df_empty_raises EloTracker.init rfl

/-- C3: when the feed yields no matches past the watermark, the
orchestrator leaves the Rating Store value-for-value unchanged and
completes (silent success); running it twice in a row with no new matches
also leaves the store unchanged on the second run. -/
theorem run_incremental_elo_noop (store : RatingStore)
    (feed : Option ℕ → List FeedRow)
    (h : feed (get_last_processed_match_date store) = []) :
    run_incremental_elo store feed = store ∧
    run_incremental_elo (run_incremental_elo store feed) feed = store := by
  have h1 : run_incremental_elo store feed = store := by
    simp [run_incremental_elo, h, EloTracker.process_new_matches, from_db_history]
  exact ⟨h1, by rw [h1, h1]⟩

/-- Witness for C3: an empty store and a feed with no matches at all. -/
theorem run_incremental_elo_noop_witness :
    run_incremental_elo ⟨[], []⟩ (fun _ => []) = ⟨[], []⟩ ∧
    run_incremental_elo (run_incremental_elo ⟨[], []⟩ (fun _ => [])) (fun _ => []) =
      ⟨[], []⟩ :=
  run_incremental_elo_noop ⟨[], []⟩ (fun _ => []) rfl

/-- The branch-computed goal difference of `process_match` is the absolute
goal difference. -/
lemma goal_diff_abs (fthg ftag : ℕ) :
    (if fthg > ftag then (fthg : ℤ) - (ftag : ℤ)
     else if fthg = ftag then 0
     else (ftag : ℤ) - (fthg : ℤ)) = |(fthg : ℤ) - (ftag : ℤ)| := by
  split_ifs with h1 h2
  · rw [abs_of_nonneg (by omega : (0 : ℤ) ≤ (fthg : ℤ) - (ftag : ℤ))]
  · simp [h2]
  · rw [abs_of_nonpos (by omega : ((fthg : ℤ) - (ftag : ℤ)) ≤ 0)]
    ring

/-- The home team's stored rating after `process_match`, in terms of the
pre-match state (distinct team names). -/
lemma process_match_get_rating_home (self : EloTracker)
    (home_team away_team : String) (fthg ftag date : ℕ) (season league : String)
    (hne : home_team ≠ away_team) :
    (self.process_match home_team away_team fthg ftag date season
        league).get_rating home_team =
      self.get_rating home_team +
        self.get_k_factor home_team *
          get_margin_multiplier
            (if fthg > ftag then (fthg : ℤ) - (ftag : ℤ)
             else if fthg = ftag then 0 else (ftag : ℤ) - (fthg : ℤ)) *
          ((if fthg > ftag then (1.0 : ℝ) else if fthg = ftag then 0.5 else 0.0) -
            expected_score (self.get_rating home_team + self.home_adv)
              (self.get_rating away_team)) := by
  simp only [EloTracker.process_match]
  unfold EloTracker.get_rating
  rw [dlookup_dinsert_ne _ _ _ _ hne, dlookup_dinsert_self]
  rfl

/-- The away team's stored rating after `process_match`, in terms of the
pre-match state. -/
lemma process_match_get_rating_away (self : EloTracker)
    (home_team away_team : String) (fthg ftag date : ℕ) (season league : String) :
    (self.process_match home_team away_team fthg ftag date season
        league).get_rating away_team =
      self.get_rating away_team +
        self.get_k_factor away_team *
          get_margin_multiplier
            (if fthg > ftag then (fthg : ℤ) - (ftag : ℤ)
             else if fthg = ftag then 0 else (ftag : ℤ) - (fthg : ℤ)) *
          ((1 - (if fthg > ftag then (1.0 : ℝ) else if fthg = ftag then 0.5 else 0.0)) -
            (1 - expected_score (self.get_rating home_team + self.home_adv)
              (self.get_rating away_team))) := by
  simp only [EloTracker.process_match]
  unfold EloTracker.get_rating
  rw [dlookup_dinsert_self]
  rfl

/-- C1: one `process_match` call stores exactly
`r_home + k_home * g_mult * (actual_home - expected_home)` and
`r_away + k_away * g_mult * ((1 - actual_home) - (1 - expected_home))`,
with all reads (`r`, `k`) taken from the pre-match state, the logistic
expectation applying the home-advantage bonus only inside the formula
(never persisted), the multiplier taken at the absolute goal difference,
and both match counters incremented by exactly 1. -/
theorem process_match_update_equations (self : EloTracker)
    (home_team away_team : String) (fthg ftag : ℕ) (date : ℕ)
    (season league : String) (hne : home_team ≠ away_team) :
    let r_home := self.get_rating home_team
    let r_away := self.get_rating away_team
    let k_home := self.get_k_factor home_team
    let k_away := self.get_k_factor away_team
    let actual_home : ℝ := if fthg > ftag then 1.0 else if fthg = ftag then 0.5 else 0.0
    let expected_home : ℝ :=
      1 / (1 + (10 : ℝ) ^ ((r_away - (r_home + self.home_adv)) / 400))
    let g_mult := get_margin_multiplier |(fthg : ℤ) - (ftag : ℤ)|
    let P := self.process_match home_team away_team fthg ftag date season league
    dlookup P.ratings home_team =
      some (r_home + k_home * g_mult * (actual_home - expected_home)) ∧
    dlookup P.ratings away_team =
      some (r_away + k_away * g_mult * ((1 - actual_home) - (1 - expected_home))) ∧
    (dlookup P.match_counts home_team).getD 0 =
      (dlookup self.match_counts home_team).getD 0 + 1 ∧
    (dlookup P.match_counts away_team).getD 0 =
      (dlookup self.match_counts away_team).getD 0 + 1 := by
  have hne2 : away_team ≠ home_team := fun hk => hne hk.symm
  simp only [EloTracker.process_match, expected_score]
  rw [goal_diff_abs]
  refine ⟨?_, ?_, ?_, ?_⟩
  · rw [dlookup_dinsert_ne _ _ _ _ hne, dlookup_dinsert_self]
  · rw [dlookup_dinsert_self]
  · rw [dlookup_dinsert_ne _ _ _ _ hne, dlookup_dinsert_self]
    rfl
  · rw [dlookup_dinsert_self]
    simp [dlookup_dinsert_ne _ _ _ _ hne2]

/-- Witness for C1 (extracting the home match-counter increment at a
concrete match between distinct teams). -/
theorem process_match_update_equations_witness :
    (dlookup ((EloTracker.init).process_match "A" "B" 2 0 1 "s" "t").match_counts
        "A").getD 0 =
      (dlookup (EloTracker.init).match_counts "A").getD 0 + 1 :=
  (process_match_update_equations EloTracker.init "A" "B" 2 0 1 "s" "t"
    (by decide)).2.2.1

/-- C7: the stored per-match deltas always satisfy
`delta_away = -(k_away / k_home) * delta_home` (for nonzero `k_home`);
with equal K-factors `delta_away = -delta_home` and the two stored ratings
have an invariant sum; and at a concrete match pairing a stable-K home
team with a volatile-K away team the deltas are nonzero and not mutually
opposite. -/
theorem process_match_delta_antisymmetry (self : EloTracker)
    (home_team away_team : String) (fthg ftag date : ℕ) (season league : String)
    (hne : home_team ≠ away_team) :
    let P := self.process_match home_team away_team fthg ftag date season league
    let delta_home := P.get_rating home_team - self.get_rating home_team
    let delta_away := P.get_rating away_team - self.get_rating away_team
    (self.get_k_factor home_team ≠ 0 →
      delta_away =
        -(self.get_k_factor away_team / self.get_k_factor home_team) * delta_home) ∧
    (self.get_k_factor home_team = self.get_k_factor away_team →
      delta_away = -delta_home ∧
      P.get_rating home_team + P.get_rating away_team =
        self.get_rating home_team + self.get_rating away_team) ∧
    (let s0 : EloTracker :=
      { EloTracker.init with
        ratings := [("A", 1460), ("B", 1900)], match_counts := [("A", 30)] }
     let P0 := s0.process_match "A" "B" 1 0 1 "s" "t"
     s0.get_k_factor "A" ≠ s0.get_k_factor "B" ∧
     P0.get_rating "A" - s0.get_rating "A" ≠ 0 ∧
     P0.get_rating "B" - s0.get_rating "B" ≠
       -(P0.get_rating "A" - s0.get_rating "A")) := by
  have hlookH := process_match_get_rating_home self home_team away_team fthg ftag
    date season league hne
  have hlookA := process_match_get_rating_away self home_team away_team fthg ftag
    date season league
  refine ⟨?_, ?_, ?_⟩
  · intro hk0
    rw [hlookH, hlookA]
    field_simp
    ring
  · intro hkeq
    rw [hlookH, hlookA, hkeq]
    constructor
    · ring
    · ring
  · have hAB : ("A" : String) ≠ "B" := by decide
    have hBA : ("B" : String) ≠ "A" := by decide
    have hkA :
        ({ EloTracker.init with
            ratings := [("A", 1460), ("B", 1900)],
            match_counts := [("A", 30)] } : EloTracker).get_k_factor "A" = 20 := by
      simp [EloTracker.get_k_factor, EloTracker.init, dlookup]
    have hkB :
        ({ EloTracker.init with
            ratings := [("A", 1460), ("B", 1900)],
            match_counts := [("A", 30)] } : EloTracker).get_k_factor "B" = 40 := by
      simp [EloTracker.get_k_factor, EloTracker.init, dlookup, hAB]
    have hexp :
        expected_score ((1460 : ℝ) + 40) 1900 = 1 / 11 := by
      unfold expected_score
      rw [show ((1900 : ℝ) - (1460 + 40)) / 400 = 1 by norm_num, Real.rpow_one]
      norm_num
    refine ⟨by rw [hkA, hkB]; norm_num, ?_, ?_⟩
    · simp only [EloTracker.process_match, EloTracker.get_rating, EloTracker.get_k_factor,
        EloTracker.init, dlookup, dinsert, hAB, hBA]
      simp [hAB, hBA, dlookup]
      rw [hexp]
      norm_num [get_margin_multiplier]
    · simp only [EloTracker.process_match, EloTracker.get_rating, EloTracker.get_k_factor,
        EloTracker.init, dlookup, dinsert, hAB, hBA]
      simp [hAB, hBA, dlookup]
      rw [hexp]
      norm_num [get_margin_multiplier]

/-- Witness for C7 (equal-K zero-sum at a concrete fresh match: the two
stored ratings still sum to twice the base). -/
theorem process_match_delta_antisymmetry_witness :
    ((EloTracker.init).process_match "A" "B" 1 0 1 "s" "t").get_rating "A" +
        ((EloTracker.init).process_match "A" "B" 1 0 1 "s" "t").get_rating "B" =
      (EloTracker.init).get_rating "A" + (EloTracker.init).get_rating "B" :=
  ((process_match_delta_antisymmetry EloTracker.init "A" "B" 1 0 1 "s" "t"
    (by decide)).2.1 rfl).2

/-! Replay and history-accumulator lemmas. -/

lemma stepMatch_history (st : EloTracker) (m : MatchArgs) :
    (stepMatch st m).history = st.history ++ [mkRecord st m] := rfl

lemma replay_cons (st : EloTracker) (m : MatchArgs) (ms : List MatchArgs) :
    replay st (m :: ms) = replay (stepMatch st m) ms := rfl

lemma replay_history (ms : List MatchArgs) :
    ∀ st : EloTracker, (replay st ms).history = st.history ++ runRecords st ms := by
  induction ms with
  | nil => intro st; simp [replay, runRecords]
  | cons m rest ih =>
      intro st
      rw [replay_cons, ih]
      simp [runRecords, stepMatch_history]

lemma runRecords_length (ms : List MatchArgs) :
    ∀ st : EloTracker, (runRecords st ms).length = ms.length := by
  induction ms with
  | nil => intro st; rfl
  | cons m rest ih => intro st; simp [runRecords, ih]

lemma runRecords_get (ms : List MatchArgs) :
    ∀ (st : EloTracker) (i : ℕ) (m : MatchArgs), ms[i]? = some m →
      (runRecords st ms)[i]? = some (mkRecord (replay st (ms.take i)) m) := by
  induction ms with
  | nil =>
      intro st i m h
      simp at h
  | cons m0 rest ih =>
      intro st i m h
      cases i with
      | zero =>
          simp at h
          subst h
          simp [runRecords, replay]
      | succ n =>
          simp only [List.getElem?_cons_succ] at h
          simp only [runRecords, List.getElem?_cons_succ]
          rw [ih (stepMatch st m0) n m h]
          rfl

/-- C8: after an engine whose history accumulator starts empty replays N
matches, `get_history_df` has exactly N records in processing order;
record i is the audit record of the transition out of the i-th running
state (before-ratings of both teams rounded to 2 decimals, the
expected-home probability to 3, both deltas to 2), and — for a match
between distinct team names — its after-rating fields are exactly the
rounded stored ratings immediately after that match. -/
theorem history_completeness (st : EloTracker) (ms : List MatchArgs)
    (h : st.history = []) :
    (replay st ms).get_history_df.length = ms.length ∧
    (∀ i m, ms[i]? = some m →
      (replay st ms).get_history_df[i]? =
        some (mkRecord (replay st (ms.take i)) m)) ∧
    (∀ i m, ms[i]? = some m → m.home_team ≠ m.away_team →
      (mkRecord (replay st (ms.take i)) m).HomeRating_After =
        round2 ((replay st (ms.take (i + 1))).get_rating m.home_team) ∧
      (mkRecord (replay st (ms.take i)) m).AwayRating_After =
        round2 ((replay st (ms.take (i + 1))).get_rating m.away_team)) := by
  have hh : (replay st ms).get_history_df = runRecords st ms := by
    rw [EloTracker.get_history_df, replay_history, h]
    rfl
  refine ⟨by rw [hh, runRecords_length], ?_, ?_⟩
  · intro i m hm
    rw [hh]
    exact runRecords_get ms st i m hm
  · intro i m hm hne
    have htake : ms.take (i + 1) = ms.take i ++ [m] := by
      rw [List.take_succ, hm]
      rfl
    have hrep : replay st (ms.take (i + 1)) = stepMatch (replay st (ms.take i)) m := by
      rw [htake]
      show (ms.take i ++ [m]).foldl stepMatch st = _
      rw [List.foldl_append]
      rfl
    rw [hrep]
    constructor
    · have hlook := process_match_get_rating_home (replay st (ms.take i)) m.home_team
        m.away_team m.fthg m.ftag m.date m.season m.league hne
      simp only [stepMatch]
      rw [hlook]
      simp only [mkRecord]
    · have hlook := process_match_get_rating_away (replay st (ms.take i)) m.home_team
        m.away_team m.fthg m.ftag m.date m.season m.league
      simp only [stepMatch]
      rw [hlook]
      simp only [mkRecord]

/-- Witness for C8: one processed match yields exactly one history
record. -/
theorem history_completeness_witness :
    (replay EloTracker.init [⟨"A", "B", 2, 0, 1, "s", "t"⟩]).get_history_df.length = 1 :=
  (history_completeness EloTracker.init [⟨"A", "B", 2, 0, 1, "s", "t"⟩] rfl).1

/-! Sorting lemmas for chronological replay. -/

instance : IsTotal MatchRow (fun a b => a.Date ≤ b.Date) :=
  ⟨fun a b => Nat.le_total a.Date b.Date⟩

instance : IsTrans MatchRow (fun a b => a.Date ≤ b.Date) :=
  ⟨fun _ _ _ => Nat.le_trans⟩

instance : IsTotal FeedRow (fun a b => a.Date ≤ b.Date) :=
  ⟨fun a b => Nat.le_total a.Date b.Date⟩

instance : IsTrans FeedRow (fun a b => a.Date ≤ b.Date) :=
  ⟨fun _ _ _ => Nat.le_trans⟩

/-- Two sorted lists that are permutations of each other and whose sort
keys are pairwise distinct are equal. -/
lemma sorted_perm_eq_of_nodup_keys {α : Type} (key : α → ℕ) :
    ∀ l1 l2 : List α, l1.Perm l2 →
      l1.Sorted (fun a b => key a ≤ key b) →
      l2.Sorted (fun a b => key a ≤ key b) →
      (l1.map key).Nodup → l1 = l2 := by
  intro l1
  induction l1 with
  | nil =>
      intro l2 hp _ _ _
      exact (List.Perm.eq_nil hp.symm).symm
  | cons a t1 ih =>
      intro l2 hp hs1 hs2 hnd
      cases l2 with
      | nil =>
          have := List.Perm.eq_nil hp
          simp at this
      | cons b t2 =>
          have hks1 := List.sorted_cons.mp hs1
          have hks2 := List.sorted_cons.mp hs2
          have hndc : (∀ x ∈ t1, ¬ key x = key a) ∧ (t1.map key).Nodup := by
            simpa using hnd
          have hab : a = b := by
            have haIn : a ∈ b :: t2 := hp.subset (List.mem_cons_self a t1)
            rcases List.mem_cons.mp haIn with h | haT2
            · exact h
            · have hbIn : b ∈ a :: t1 := hp.symm.subset (List.mem_cons_self b t2)
              rcases List.mem_cons.mp hbIn with h | hbT1
              · exact h.symm
              · have h1 : key a ≤ key b := hks1.1 b hbT1
                have h2 : key b ≤ key a := hks2.1 a haT2
                exact absurd (le_antisymm h1 h2).symm (hndc.1 b hbT1)
          subst hab
          rw [ih t2 hp.cons_inv hks1.2 hks2.2 hndc.2]

lemma sortByDate_perm_eq {df1 df2 : List MatchRow} (hperm : df1.Perm df2)
    (hnd : (df1.map MatchRow.Date).Nodup) : sortByDate df1 = sortByDate df2 := by
  apply sorted_perm_eq_of_nodup_keys MatchRow.Date
  · exact (List.perm_insertionSort _ df1).trans
      (hperm.trans (List.perm_insertionSort _ df2).symm)
  · exact List.sorted_insertionSort _ df1
  · exact List.sorted_insertionSort _ df2
  · exact (((List.perm_insertionSort _ df1).map MatchRow.Date).nodup_iff).mpr hnd

lemma sortFeedByDate_perm_eq {f1 f2 : List FeedRow} (hperm : f1.Perm f2)
    (hnd : (f1.map FeedRow.Date).Nodup) : sortFeedByDate f1 = sortFeedByDate f2 := by
  apply sorted_perm_eq_of_nodup_keys FeedRow.Date
  · exact (List.perm_insertionSort _ f1).trans
      (hperm.trans (List.perm_insertionSort _ f2).symm)
  · exact List.sorted_insertionSort _ f1
  · exact List.sorted_insertionSort _ f2
  · exact (((List.perm_insertionSort _ f1).map FeedRow.Date).nodup_iff).mpr hnd

/-- C4 (amended): the batch folds are insensitive to the input
collection's pre-sort order provided no two rows share a date — both
`process_league_season` and `process_new_matches` sort by date before
folding, so any two permutations of a date-distinct row collection
produce identical engine states. (With ties the sort is stable, so tie
order follows feed order and the result can depend on it.) -/
theorem batch_fold_perm_deterministic (self : EloTracker)
    (df1 df2 : List MatchRow) (hperm : df1.Perm df2)
    (hnd : (df1.map MatchRow.Date).Nodup)
    (f1 f2 : List FeedRow) (hpermf : f1.Perm f2)
    (hndf : (f1.map FeedRow.Date).Nodup)
    (season league_key : String) :
    self.process_league_season df1 season league_key =
      self.process_league_season df2 season league_key ∧
    self.process_new_matches f1 = self.process_new_matches f2 := by
  constructor
  · unfold EloTracker.process_league_season
    rw [sortByDate_perm_eq hperm hnd]
  · unfold EloTracker.process_new_matches
    rw [sortFeedByDate_perm_eq hpermf hndf, hpermf.length_eq]

/-- Witness for C4 (amended), at a two-row collection with distinct dates
and its transposition. -/
theorem batch_fold_perm_deterministic_witness :
    (EloTracker.init).process_league_season
        [⟨1, "A", "B", 2, 0⟩, ⟨2, "B", "C", 0, 1⟩] "s" "t" =
      (EloTracker.init).process_league_season
        [⟨2, "B", "C", 0, 1⟩, ⟨1, "A", "B", 2, 0⟩] "s" "t" :=
  (batch_fold_perm_deterministic EloTracker.init
    [⟨1, "A", "B", 2, 0⟩, ⟨2, "B", "C", 0, 1⟩]
    [⟨2, "B", "C", 0, 1⟩, ⟨1, "A", "B", 2, 0⟩]
    (List.Perm.swap _ _ _) (by simp)
    [] [] (List.Perm.refl _) (by simp) "s" "t").1

/-! Facts about the logistic expectation, used by the counterexamples. -/

lemma expected_score_self (a : ℝ) : expected_score a a = 1 / 2 := by
  unfold expected_score
  rw [sub_self, zero_div, Real.rpow_zero]
  norm_num

lemma expected_score_gt_half {a b : ℝ} (h : b < a) : 1 / 2 < expected_score a b := by
  unfold expected_score
  have hexp : (b - a) / 400 < 0 := div_neg_of_neg_of_pos (by linarith) (by norm_num)
  have ht : (10 : ℝ) ^ ((b - a) / 400) < 1 :=
    Real.rpow_lt_one_of_one_lt_of_neg (by norm_num) hexp
  have ht0 : (0 : ℝ) < (10 : ℝ) ^ ((b - a) / 400) :=
    Real.rpow_pos_of_pos (by norm_num) _
  rw [lt_div_iff₀ (by linarith)]
  linarith

/-- A team that plays in neither slot of a match keeps its rating. -/
lemma process_match_get_rating_other (self : EloTracker)
    (home_team away_team t : String) (fthg ftag date : ℕ) (season league : String)
    (h1 : t ≠ home_team) (h2 : t ≠ away_team) :
    (self.process_match home_team away_team fthg ftag date season
        league).get_rating t = self.get_rating t := by
  unfold EloTracker.get_rating
  simp only [EloTracker.process_match]
  rw [dlookup_dinsert_ne _ _ _ _ h2, dlookup_dinsert_ne _ _ _ _ h1]

/-- A team that plays in neither slot of a match keeps its K-factor. -/
lemma process_match_get_k_factor_other (self : EloTracker)
    (home_team away_team t : String) (fthg ftag date : ℕ) (season league : String)
    (h1 : t ≠ home_team) (h2 : t ≠ away_team) :
    (self.process_match home_team away_team fthg ftag date season
        league).get_k_factor t = self.get_k_factor t := by
  unfold EloTracker.get_k_factor
  simp only [EloTracker.process_match]
  rw [dlookup_dinsert_ne _ _ _ _ h2, dlookup_dinsert_ne _ _ _ _ h1]

/-- Counterexample to C4 as stated: with two legal-constructor matches on
the same date sharing team A, the two pre-sort orders give team C
different final ratings — the stable sort preserves tie order, so the
shared team's rating moves between the two ties. -/
theorem process_league_season_tie_counterexample :
    ((EloTracker.init 20 1 30 0 1500).process_league_season
        [⟨5, "A", "B", 4, 0⟩, ⟨5, "A", "C", 1, 0⟩] "s" "t").get_rating "C" ≠
      ((EloTracker.init 20 1 30 0 1500).process_league_season
        [⟨5, "A", "C", 1, 0⟩, ⟨5, "A", "B", 4, 0⟩] "s" "t").get_rating "C" := by
  have hCA : ("C" : String) ≠ "A" := by decide
  have hCB : ("C" : String) ≠ "B" := by decide
  have h1 : (EloTracker.init 20 1 30 0 1500).process_league_season
      [⟨5, "A", "B", 4, 0⟩, ⟨5, "A", "C", 1, 0⟩] "s" "t" =
      ((EloTracker.init 20 1 30 0 1500).process_match "A" "B" 4 0 5 "s"
        "t").process_match "A" "C" 1 0 5 "s" "t" := by
    simp [EloTracker.process_league_season, sortByDate, List.insertionSort,
      List.orderedInsert]
  have h2 : (EloTracker.init 20 1 30 0 1500).process_league_season
      [⟨5, "A", "C", 1, 0⟩, ⟨5, "A", "B", 4, 0⟩] "s" "t" =
      ((EloTracker.init 20 1 30 0 1500).process_match "A" "C" 1 0 5 "s"
        "t").process_match "A" "B" 4 0 5 "s" "t" := by
    simp [EloTracker.process_league_season, sortByDate, List.insertionSort,
      List.orderedInsert]
  have hA1 : ((EloTracker.init 20 1 30 0 1500).process_match "A" "B" 4 0 5 "s"
      "t").get_rating "A" = 1500 + 15 / 16 := by
    rw [process_match_get_rating_home _ _ _ _ _ _ _ _ (by decide : ("A" : String) ≠ "B")]
    rw [show expected_score ((EloTracker.init 20 1 30 0 1500).get_rating "A" +
        (EloTracker.init 20 1 30 0 1500).home_adv)
        ((EloTracker.init 20 1 30 0 1500).get_rating "B") = 1 / 2 from by
      show expected_score ((1500 : ℝ) + 0) 1500 = 1 / 2
      rw [show ((1500 : ℝ) + 0) = 1500 by norm_num]
      exact expected_score_self 1500]
    norm_num [EloTracker.get_rating, EloTracker.get_k_factor, EloTracker.init, dlookup,
      get_margin_multiplier]
  have hCr : ((EloTracker.init 20 1 30 0 1500).process_match "A" "B" 4 0 5 "s"
      "t").get_rating "C" = 1500 := by
    rw [process_match_get_rating_other _ _ _ _ _ _ _ _ _ hCA hCB]
    rfl
  have hCk : ((EloTracker.init 20 1 30 0 1500).process_match "A" "B" 4 0 5 "s"
      "t").get_k_factor "C" = 1 := by
    rw [process_match_get_k_factor_other _ _ _ _ _ _ _ _ _ hCA hCB]
    rfl
  have hO1 : (((EloTracker.init 20 1 30 0 1500).process_match "A" "B" 4 0 5 "s"
      "t").process_match "A" "C" 1 0 5 "s" "t").get_rating "C" =
      1499 + expected_score (1500 + 15 / 16 + 0) 1500 := by
    rw [process_match_get_rating_away]
    rw [hCr, hCk, hA1]
    rw [show ((EloTracker.init 20 1 30 0 1500).process_match "A" "B" 4 0 5 "s"
      "t").home_adv = (0 : ℝ) from rfl]
    norm_num [get_margin_multiplier]
    ring
  have hC2 : ((EloTracker.init 20 1 30 0 1500).process_match "A" "C" 1 0 5 "s"
      "t").get_rating "C" = 1500 - 1 / 2 := by
    rw [process_match_get_rating_away]
    rw [show expected_score ((EloTracker.init 20 1 30 0 1500).get_rating "A" +
        (EloTracker.init 20 1 30 0 1500).home_adv)
        ((EloTracker.init 20 1 30 0 1500).get_rating "C") = 1 / 2 from by
      show expected_score ((1500 : ℝ) + 0) 1500 = 1 / 2
      rw [show ((1500 : ℝ) + 0) = 1500 by norm_num]
      exact expected_score_self 1500]
    norm_num [EloTracker.get_rating, EloTracker.get_k_factor, EloTracker.init, dlookup,
      get_margin_multiplier]
  have hO2 : (((EloTracker.init 20 1 30 0 1500).process_match "A" "C" 1 0 5 "s"
      "t").process_match "A" "B" 4 0 5 "s" "t").get_rating "C" = 1500 - 1 / 2 := by
    rw [process_match_get_rating_other _ _ _ _ _ _ _ _ _ hCA hCB, hC2]
  rw [h1, h2, hO1, hO2]
  have hgt := expected_score_gt_half (show (1500 : ℝ) < 1500 + 15 / 16 + 0 by norm_num)
  intro heq
  linarith

/-! Load/export roundtrip lemmas. -/

lemma load_from_db_lookup_frame (rows : List DbRatingRow) :
    ∀ (st : EloTracker) (t : String), t ∉ rows.map DbRatingRow.team →
      dlookup (st.load_from_db rows).ratings t = dlookup st.ratings t ∧
      dlookup (st.load_from_db rows).match_counts t = dlookup st.match_counts t := by
  induction rows with
  | nil => intro st t _; exact ⟨rfl, rfl⟩
  | cons row rest ih =>
      intro st t h
      simp only [List.map_cons, List.mem_cons] at h
      push_neg at h
      obtain ⟨h1, h2⟩ := h
      rw [load_from_db_cons]
      have hrec := ih (load_row st row) t h2
      rw [hrec.1, hrec.2]
      constructor
      · show dlookup (dinsert st.ratings row.team row.elo_rating) t = _
        exact dlookup_dinsert_ne _ _ _ _ h1
      · show dlookup (dinsert st.match_counts row.team row.matches_played) t = _
        exact dlookup_dinsert_ne _ _ _ _ h1

lemma load_from_db_lookup (rows : List DbRatingRow) :
    ∀ (st : EloTracker) (row : DbRatingRow), row ∈ rows →
      (rows.map DbRatingRow.team).Nodup →
      dlookup (st.load_from_db rows).ratings row.team = some row.elo_rating ∧
      dlookup (st.load_from_db rows).match_counts row.team =
        some row.matches_played := by
  induction rows with
  | nil => intro st row h _; simp at h
  | cons r0 rest ih =>
      intro st row hmem hnd
      simp only [List.map_cons, List.nodup_cons] at hnd
      rcases List.mem_cons.mp hmem with heq | hmem2
      · subst heq
        rw [load_from_db_cons]
        have hframe := load_from_db_lookup_frame rest (load_row st row) row.team hnd.1
        rw [hframe.1, hframe.2]
        constructor
        · show dlookup (dinsert st.ratings row.team row.elo_rating) row.team = _
          exact dlookup_dinsert_self _ _ _
        · show dlookup (dinsert st.match_counts row.team row.matches_played) row.team = _
          exact dlookup_dinsert_self _ _ _
      · rw [load_from_db_cons]
        exact ih (load_row st r0) row hmem2 hnd.2

lemma enum_map_toDbRow (l : List (String × ℝ × ℕ × Option String)) :
    (l.enum.map (fun ri =>
      ({ Rank := ri.1 + 1, Team := ri.2.1, Elo := ri.2.2.1
         Matches := ri.2.2.2.1, league := ri.2.2.2.2 } : RatingsRow))).map toDbRow =
      l.map storedRowOf := by
  rw [List.map_map]
  have hcomp : (toDbRow ∘ fun ri : ℕ × String × ℝ × ℕ × Option String =>
      ({ Rank := ri.1 + 1, Team := ri.2.1, Elo := ri.2.2.1
         Matches := ri.2.2.2.1, league := ri.2.2.2.2 } : RatingsRow)) =
      storedRowOf ∘ Prod.snd := by
    funext ri
    rfl
  rw [hcomp, ← List.map_map, List.enum_map_snd]

lemma export_reload_eq (self : EloTracker) (h : self.ratings ≠ []) :
    export_reload self =
      (EloTracker.init self.k_stable self.k_volatile self.volatile_limit
        self.home_adv self.base).load_from_db
        (((self.ratings.map (fun kv =>
            (kv.1, round2 kv.2, (dlookup self.match_counts kv.1).getD 0,
              dlookup self.team_leagues kv.1))).insertionSort
          (fun a b => b.2.1 ≤ a.2.1)).map storedRowOf) := by
  have hmap : self.ratings.map (fun kv =>
      (kv.1, round2 kv.2, (dlookup self.match_counts kv.1).getD 0,
        dlookup self.team_leagues kv.1)) ≠ [] := by
    intro hh
    exact h (List.map_eq_nil_iff.mp hh)
  have hempty : (self.ratings.map (fun kv =>
      (kv.1, round2 kv.2, (dlookup self.match_counts kv.1).getD 0,
        dlookup self.team_leagues kv.1))).isEmpty = false := by
    rcases hq : self.ratings.map (fun kv =>
      (kv.1, round2 kv.2, (dlookup self.match_counts kv.1).getD 0,
        dlookup self.team_leagues kv.1)) with _ | ⟨x, xs⟩
    · exact absurd hq hmap
    · rw [hq]
      rfl
  unfold export_reload EloTracker.get_current_ratings_df
  simp only [hempty, Bool.false_eq_true, if_false]
  rw [enum_map_toDbRow]

/-- Through an export-then-reload checkpoint, a stored team's rating comes
back rounded to 2 decimals and its match count comes back exactly. -/
lemma export_reload_lookup (self : EloTracker)
    (hnd : (self.ratings.map Prod.fst).Nodup) (team : String) (r : ℝ)
    (hr : dlookup self.ratings team = some r) :
    dlookup (export_reload self).ratings team = some (round2 r) ∧
    dlookup (export_reload self).match_counts team =
      some ((dlookup self.match_counts team).getD 0) := by
  have hne : self.ratings ≠ [] := by
    intro hh
    rw [hh] at hr
    simp [dlookup] at hr
  rw [export_reload_eq self hne]
  have hmem : (team, round2 r, (dlookup self.match_counts team).getD 0,
      dlookup self.team_leagues team) ∈ self.ratings.map (fun kv =>
        (kv.1, round2 kv.2, (dlookup self.match_counts kv.1).getD 0,
          dlookup self.team_leagues kv.1)) :=
    List.mem_map_of_mem _ (dlookup_mem hr)
  have hperm := List.perm_insertionSort (fun a b => b.2.1 ≤ a.2.1)
    (self.ratings.map (fun kv =>
      (kv.1, round2 kv.2, (dlookup self.match_counts kv.1).getD 0,
        dlookup self.team_leagues kv.1)))
  have hmem2 := hperm.mem_iff.mpr hmem
  have hrow := List.mem_map_of_mem storedRowOf hmem2
  have hkeys : ((((self.ratings.map (fun kv =>
      (kv.1, round2 kv.2, (dlookup self.match_counts kv.1).getD 0,
        dlookup self.team_leagues kv.1))).insertionSort
      (fun a b => b.2.1 ≤ a.2.1)).map storedRowOf).map DbRatingRow.team).Nodup := by
    rw [List.map_map]
    have hc1 : (DbRatingRow.team ∘ storedRowOf) =
        (fun kv : String × ℝ × ℕ × Option String => kv.1) := rfl
    rw [hc1]
    have hdata : ((self.ratings.map (fun kv =>
        (kv.1, round2 kv.2, (dlookup self.match_counts kv.1).getD 0,
          dlookup self.team_leagues kv.1))).map
        (fun kv : String × ℝ × ℕ × Option String => kv.1)).Nodup := by
      rw [List.map_map]
      exact hnd
    exact ((hperm.map (fun kv : String × ℝ × ℕ × Option String => kv.1)).nodup_iff).mpr
      hdata
  have hload := load_from_db_lookup _
    (EloTracker.init self.k_stable self.k_volatile self.volatile_limit
      self.home_adv self.base)
    (storedRowOf (team, round2 r, (dlookup self.match_counts team).getD 0,
      dlookup self.team_leagues team)) hrow hkeys
  exact ⟨hload.1, hload.2⟩

/-- C2 (amended): the checkpoint-resume step through the Rating Store is
not an exact identity on ratings: reloading the export restores each
stored team's `matches_played` exactly, but its rating only after
rounding to 2 decimals (the snapshot stores `round(rating, 2)`), so
checkpoint-resume agrees with continuous full replay only up to the
rounding applied at each checkpoint boundary. -/
theorem export_reload_roundtrip (self : EloTracker)
    (hnd : (self.ratings.map Prod.fst).Nodup) (team : String) (r : ℝ)
    (hr : dlookup self.ratings team = some r) :
    dlookup (export_reload self).ratings team = some (round2 r) ∧
    dlookup (export_reload self).match_counts team =
      some ((dlookup self.match_counts team).getD 0) :=
  export_reload_lookup self hnd team r hr

/-- Witness for C2 (amended) at a one-team state. -/
theorem export_reload_roundtrip_witness :
    dlookup (export_reload { EloTracker.init with
        ratings := [("A", 1)], match_counts := [("A", 7)] }).ratings "A" =
      some (round2 1) ∧
    dlookup (export_reload { EloTracker.init with
        ratings := [("A", 1)], match_counts := [("A", 7)] }).match_counts "A" =
      some ((dlookup ({ EloTracker.init with
          ratings := [("A", 1)], match_counts := [("A", 7)] } : EloTracker).match_counts
        "A").getD 0) :=
  export_reload_roundtrip _ (by simp) "A" 1 (by simp [dlookup])

/-- Counterexample to C2 as stated: with legal constructor arguments
(`k_factor_volatile = 1`, `home_advantage = 0`), team A's rating after a
4–0 home win is `1500 + 15/16 = 1500.9375`; exporting the batch through
`get_current_ratings_df` stores `1500.94`, so after reload and a second
batch (a match between two other teams) the resumed engine disagrees with
a single-engine replay of the same two matches. -/
theorem checkpoint_resume_counterexample :
    ((export_reload ((EloTracker.init 20 1 30 0 1500).process_match "A" "B" 4 0 1 "s"
        "t")).process_match "C" "D" 1 0 2 "s" "t").get_rating "A" ≠
      (((EloTracker.init 20 1 30 0 1500).process_match "A" "B" 4 0 1 "s"
        "t").process_match "C" "D" 1 0 2 "s" "t").get_rating "A" := by
  have hAC : ("A" : String) ≠ "C" := by decide
  have hAD : ("A" : String) ≠ "D" := by decide
  have hAB : ("A" : String) ≠ "B" := by decide
  have hA1 : ((EloTracker.init 20 1 30 0 1500).process_match "A" "B" 4 0 1 "s"
      "t").get_rating "A" = 1500 + 15 / 16 := by
    rw [process_match_get_rating_home _ _ _ _ _ _ _ _ hAB]
    rw [show expected_score ((EloTracker.init 20 1 30 0 1500).get_rating "A" +
        (EloTracker.init 20 1 30 0 1500).home_adv)
        ((EloTracker.init 20 1 30 0 1500).get_rating "B") = 1 / 2 from by
      show expected_score ((1500 : ℝ) + 0) 1500 = 1 / 2
      rw [show ((1500 : ℝ) + 0) = 1500 by norm_num]
      exact expected_score_self 1500]
    norm_num [EloTracker.get_rating, EloTracker.get_k_factor, EloTracker.init, dlookup,
      get_margin_multiplier]
  have hsome : dlookup ((EloTracker.init 20 1 30 0 1500).process_match "A" "B" 4 0 1 "s"
      "t").ratings "A" =
      some (((EloTracker.init 20 1 30 0 1500).process_match "A" "B" 4 0 1 "s"
        "t").get_rating "A") := by
    unfold EloTracker.get_rating
    simp only [EloTracker.process_match]
    rw [dlookup_dinsert_ne _ _ _ _ hAB, dlookup_dinsert_self]
    rfl
  have hvA : dlookup ((EloTracker.init 20 1 30 0 1500).process_match "A" "B" 4 0 1 "s"
      "t").ratings "A" = some (1500 + 15 / 16) := by
    rw [hsome, hA1]
  have hkeys : ((((EloTracker.init 20 1 30 0 1500).process_match "A" "B" 4 0 1 "s"
      "t").ratings).map Prod.fst).Nodup := by
    simp only [EloTracker.process_match]
    simp [dinsert, EloTracker.init, hAB, List.nodup_cons]
  have hcp := export_reload_lookup ((EloTracker.init 20 1 30 0 1500).process_match
      "A" "B" 4 0 1 "s" "t") hkeys "A" (1500 + 15 / 16) hvA
  rw [process_match_get_rating_other _ _ _ _ _ _ _ _ _ hAC hAD,
    process_match_get_rating_other _ _ _ _ _ _ _ _ _ hAC hAD, hA1]
  have hview : (export_reload ((EloTracker.init 20 1 30 0 1500).process_match "A" "B"
      4 0 1 "s" "t")).get_rating "A" = round2 (1500 + 15 / 16) := by
    unfold EloTracker.get_rating
    rw [hcp.1]
    rfl
  rw [hview]
  have hfloor : round ((1500 + 15 / 16 : ℝ) * 100) = 150094 := by
    rw [round_eq]
    rw [show ((1500 + 15 / 16 : ℝ) * 100) + 1 / 2 = 150094.25 by norm_num]
    rw [Int.floor_eq_iff]
    constructor
    · norm_num
    · norm_num
  unfold round2
  rw [hfloor]
  norm_num

end GaffersElo
